import Mathlib

/-!
Verification development for the durak-rs rules engine
(src/src/game/{cards,actions,gamestate,game}.rs).

Shallow embedding conventions:
* Rust `Vec<Card>` and the `Hand(Vec<Card>)` newtype are modelled as `List Card`.
* `Vec::push` is `· ++ [c]`; `Vec::pop` removes the last element
  (`getLast?` / `dropLast`), so the draw end of the deck is the END of the list
  and `cards[0]` is the bottom card (the visible trump indicator).
* `iter().position(..)` followed by `remove(index)` removes the first
  occurrence of the card, i.e. `List.erase`.
* Rust `u8` / `usize` quantities are `Nat`; the only subtractions the code
  performs (`num_attack - num_defend`, `rank - 6`, `6 - hand.len()`) are
  modelled with truncated `Nat` subtraction, which agrees with the Rust
  values on the domains where the Rust code does not panic.
* Functions that can `panic!`/`unwrap` (`Suit::from`, `Card::from`,
  `Action::from`, the out-of-bounds index in `legal_defenses`) are embedded
  with `Option` or with an explicit fallback marked in a comment; the
  fallback branches are unreachable in the states the theorems quantify over.
* `Game::new` calls `deck.shuffle()`, the only entropy source; it is embedded
  by passing the shuffled card order as the parameter `shuffled`, and a
  reachable game is one built from a permutation of the full 36-card deck.
* `get_rewards` returns constant `f32` pairs `(1.0,-1.0)`, `(-1.0,1.0)`,
  `(0.0,0.0)`; they are modelled as the corresponding `Int` pairs.
-/

set_option maxRecDepth 16384

namespace Durak

/-- The four suits, `cards.rs` lines 10-15. -/
inductive Suit where
  | Spades
  | Hearts
  | Diamonds
  | Clubs
deriving DecidableEq

/-- `From<Suit> for u8`, `cards.rs` lines 17-26. -/
def Suit.toNat : Suit → Nat
  | .Spades => 0
  | .Hearts => 1
  | .Diamonds => 2
  | .Clubs => 3

/-- `From<u8> for Suit`, `cards.rs` lines 28-38; the `panic!` arm is `none`. -/
def Suit.fromNat : Nat → Option Suit
  | 0 => some .Spades
  | 1 => some .Hearts
  | 2 => some .Diamonds
  | 3 => some .Clubs
  | _ => none

/-- A card, `cards.rs` lines 40-44. Ranks in play are 6..14. -/
structure Card where
  suit : Suit
  rank : Nat
deriving DecidableEq

/-- `From<Card> for usize`, `cards.rs` lines 46-50: `suit*9 + rank - 6`. -/
def Card.toIdx (c : Card) : Nat :=
  c.suit.toNat * 9 + c.rank - 6

/-- `From<usize> for Card`, `cards.rs` lines 58-64; `Suit::from` panic is `none`. -/
def Card.fromIdx (value : Nat) : Option Card :=
  (Suit.fromNat (value / 9)).map (fun suit => { suit, rank := value % 9 + 6 })

/-- A card is one of the 36 the game uses: rank between 6 and 14. -/
def Card.valid (c : Card) : Prop := 6 ≤ c.rank ∧ c.rank ≤ 14

instance : DecidablePred Card.valid := fun c => by
  unfold Card.valid; infer_instance

/-- The draw pile, `cards.rs` lines 132-136 (the `num_total_cards` field is
only used by the numpy bitmap export and is omitted). -/
structure Deck where
  cards : List Card
deriving DecidableEq

/-- `Deck::new`, `cards.rs` lines 145-159: all suits crossed with ranks
`lowest_rank..15`, suits in declaration order, ranks ascending. -/
def Deck.new (lowestRank : Nat) : Deck :=
  ⟨[Suit.Spades, Suit.Hearts, Suit.Diamonds, Suit.Clubs].flatMap
    (fun suit => (List.range (15 - lowestRank)).map
      (fun i => { suit, rank := lowestRank + i }))⟩

/-- `Deck::len`, `cards.rs` lines 161-163. -/
def Deck.len (d : Deck) : Nat := d.cards.length

/-- `Deck::draw`, `cards.rs` lines 170-172: `Vec::pop`, i.e. remove the last
element. -/
def Deck.draw (d : Deck) : Option Card × Deck :=
  match d.cards.getLast? with
  | none => (none, d)
  | some c => (some c, ⟨d.cards.dropLast⟩)

/-- `Deck::draw_n`, `cards.rs` lines 174-183: draw up to `n`, stopping early
when the deck is exhausted. -/
def Deck.draw_n (d : Deck) (n : Nat) : List Card × Deck :=
  match n with
  | 0 => ([], d)
  | m + 1 =>
    match d.draw with
    | (none, _) => ([], d)
    | (some c, d1) =>
      let r := d1.draw_n m
      (c :: r.1, r.2)

/-- `Deck::get_first`, `cards.rs` lines 185-187: peek the bottom card. -/
def Deck.get_first (d : Deck) : Option Card := d.cards.head?

/-- The two players, `gamestate.rs` lines 19-23. -/
inductive GamePlayer where
  | Player1
  | Player2
deriving DecidableEq

/-- `GamePlayer::other`, `gamestate.rs` lines 25-32. -/
def GamePlayer.other : GamePlayer → GamePlayer
  | .Player1 => .Player2
  | .Player2 => .Player1

/-- The action space, `actions.rs` lines 3-9. -/
inductive Action where
  | StopAttack
  | Take
  | Attack (card : Card)
  | Defend (card : Card)
deriving DecidableEq

/-- `num_actions`, `actions.rs` lines 11-14. -/
def num_actions : Nat := 1 + 1 + 36 + 36

/-- `From<Action> for u8`, `actions.rs` lines 16-25. -/
def Action.toNat : Action → Nat
  | .StopAttack => 0
  | .Take => 1
  | .Attack c => 2 + c.toIdx
  | .Defend c => 38 + c.toIdx

/-- `From<u8> for Action`, `actions.rs` lines 27-37; the `panic!` arm is
`none`, and the ranges `2..=37` / `38..=73` are the two guarded arms. -/
def Action.fromNat (num : Nat) : Option Action :=
  if num = 0 then some .StopAttack
  else if num = 1 then some .Take
  else if num ≤ 37 then (Card.fromIdx (num - 2)).map .Attack
  else if num ≤ 73 then (Card.fromIdx (num - 38)).map .Defend
  else none

/-- Validity of an action: its card (if any) is one of the 36 in play. -/
def Action.valid : Action → Prop
  | .StopAttack => True
  | .Take => True
  | .Attack c => c.valid
  | .Defend c => c.valid

instance : DecidablePred Action.valid := fun a => by
  cases a <;> unfold Action.valid <;> infer_instance

/-- `ActionList::to_bitmap`, `actions.rs` lines 55-61: a width-74 boolean
vector with the bit of each contained action set. -/
def to_bitmap (l : List Action) : List Bool :=
  l.foldl (fun bitmap action => bitmap.set action.toNat true)
    (List.replicate num_actions false)

/-- `ActionList::from_bitmap`, `actions.rs` lines 64-71: decode every set bit
back to an action (`Action::from` cannot panic for indices below 74). -/
def from_bitmap (bitmap : List Bool) : List Action :=
  bitmap.enum.filterMap (fun p => if p.2 then Action.fromNat p.1 else none)

/-- The authoritative game state, `gamestate.rs` lines 85-96. -/
structure GameState where
  deck : Deck
  attack_table : List Card
  defense_table : List Card
  hand1 : List Card
  hand2 : List Card
  acting_player : GamePlayer
  defending_player : GamePlayer
  visible_card : Card
  defender_has_taken : Bool
  graveyard : List Card
deriving DecidableEq

/-- The per-player projection, `gamestate.rs` lines 36-47. -/
structure ObservableGameState where
  player : GamePlayer
  num_cards_in_deck : Nat
  attack_table : List Card
  defense_table : List Card
  hand : List Card
  visible_card : Card
  defender_has_taken : Bool
  acting_player : GamePlayer
  defender : GamePlayer
  cards_in_opponent : Nat
deriving DecidableEq

/-- `GameState::observe`, `gamestate.rs` lines 176-196. -/
def GameState.observe (s : GameState) (player : GamePlayer) : ObservableGameState :=
  let hand := match player with
    | GamePlayer.Player1 => s.hand1
    | GamePlayer.Player2 => s.hand2
  { player
    num_cards_in_deck := s.deck.len
    attack_table := s.attack_table
    defense_table := s.defense_table
    hand
    visible_card := s.visible_card
    defender_has_taken := s.defender_has_taken
    acting_player := s.acting_player
    defender := s.defending_player
    cards_in_opponent := match player with
      | GamePlayer.Player1 => s.hand2.length
      | GamePlayer.Player2 => s.hand1.length }

/-- `GameState::num_undefended`, `gamestate.rs` lines 198-202. -/
def GameState.num_undefended (s : GameState) : Nat :=
  s.attack_table.length - s.defense_table.length

/-- Hand lookup by player identity (used to state hypotheses). -/
def GameState.getHand (s : GameState) (p : GamePlayer) : List Card :=
  match p with
  | GamePlayer.Player1 => s.hand1
  | GamePlayer.Player2 => s.hand2

/-- `Game::defender_hand`, `game.rs` lines 73-78. -/
def GameState.defender_hand (s : GameState) : List Card :=
  match s.defending_player with
  | GamePlayer.Player1 => s.hand1
  | GamePlayer.Player2 => s.hand2

/-- `Game::attacker_hand`, `game.rs` lines 87-92. -/
def GameState.attacker_hand (s : GameState) : List Card :=
  match s.defending_player.other with
  | GamePlayer.Player1 => s.hand1
  | GamePlayer.Player2 => s.hand2

/-- One iteration of the loop body of `Game::refill_hands`, `game.rs`
lines 101-111: top the given player up to 6 cards from the deck. -/
def GameState.refill_one (s : GameState) (player : GamePlayer) : GameState :=
  let hand := s.getHand player
  let num_cards := 6 - hand.length
  if 0 < num_cards then
    let r := s.deck.draw_n num_cards
    match player with
    | GamePlayer.Player1 => { s with deck := r.2, hand1 := hand ++ r.1 }
    | GamePlayer.Player2 => { s with deck := r.2, hand2 := hand ++ r.1 }
  else s

/-- `Game::refill_hands`, `game.rs` lines 96-112: refill in the order
determined by the CURRENT `defending_player` (non-defender first). -/
def GameState.refill_hands (s : GameState) : GameState :=
  let refill_order := match s.defending_player with
    | GamePlayer.Player2 => [GamePlayer.Player1, GamePlayer.Player2]
    | GamePlayer.Player1 => [GamePlayer.Player2, GamePlayer.Player1]
  refill_order.foldl GameState.refill_one s

/-- `Game::add_table_to_defender`, `game.rs` lines 114-129: the defender
absorbs the defense table then the attack table. -/
def GameState.add_table_to_defender (s : GameState) : GameState :=
  match s.defending_player with
  | GamePlayer.Player1 =>
    { s with hand1 := s.hand1 ++ s.defense_table ++ s.attack_table
             attack_table := [], defense_table := [] }
  | GamePlayer.Player2 =>
    { s with hand2 := s.hand2 ++ s.defense_table ++ s.attack_table
             attack_table := [], defense_table := [] }

/-- `Game::clear_table`, `game.rs` lines 131-138: attack table then defense
table move to the graveyard. -/
def GameState.clear_table (s : GameState) : GameState :=
  { s with graveyard := s.graveyard ++ s.attack_table ++ s.defense_table
           attack_table := [], defense_table := [] }

/-- `Game::handle_take`, `game.rs` lines 140-154. -/
def GameState.handle_take (s : GameState) : GameState :=
  let num_attack := s.attack_table.length
  let num_defend := s.defense_table.length
  if num_attack = 6 ∨ s.defender_hand.length ≤ num_attack - num_defend then
    let t := (s.add_table_to_defender).refill_hands
    { t with acting_player := t.acting_player.other }
  else
    { s with defender_has_taken := true
             acting_player := s.acting_player.other }

/-- `Game::handle_stop_attack`, `game.rs` lines 157-179. In the
`defender_has_taken` branch the acting player is NOT flipped; in the other
branch it always is, and the table is cleared only when nothing is
undefended. The flag is reset at the end in every case. -/
def GameState.handle_stop_attack (s : GameState) : GameState :=
  let s1 :=
    if s.defender_has_taken then
      (s.add_table_to_defender).refill_hands
    else
      let s2 :=
        if s.num_undefended = 0 then
          ({ s.clear_table with
             defending_player := s.defending_player.other }).refill_hands
        else s
      { s2 with acting_player := s2.acting_player.other }
  { s1 with defender_has_taken := false }

/-- `Game::handle_attack`, `game.rs` lines 181-187: push the card on the
attack table and remove its first occurrence from the attacker's hand. -/
def GameState.handle_attack (s : GameState) (card : Card) : GameState :=
  let s1 := { s with attack_table := s.attack_table ++ [card] }
  match s1.defending_player.other with
  | GamePlayer.Player1 => { s1 with hand1 := s1.hand1.erase card }
  | GamePlayer.Player2 => { s1 with hand2 := s1.hand2.erase card }

/-- `Game::handle_defense`, `game.rs` lines 190-220. On the round boundary
(defense table full, or defender's hand emptied) the order is: clear table,
refill hands, reset the flag, and only THEN flip the defending role. -/
def GameState.handle_defense (s : GameState) (card : Card) : GameState :=
  let s1 := { s with defense_table := s.defense_table ++ [card] }
  let s2 := match s1.defending_player with
    | GamePlayer.Player1 => { s1 with hand1 := s1.hand1.erase card }
    | GamePlayer.Player2 => { s1 with hand2 := s1.hand2.erase card }
  if s2.defense_table.length = 6 ∨ s2.defender_hand.length = 0 then
    let s3 := (s2.clear_table).refill_hands
    { s3 with defender_has_taken := false
              defending_player := s3.defending_player.other }
  else if s2.num_undefended = 0 then
    { s2 with acting_player := s2.acting_player.other }
  else s2

/-- `Game::ranks`, `game.rs` lines 222-231: the ranks present on either
table (the Rust `HashSet` is modelled by a list with the same membership). -/
def GameState.ranks (s : GameState) : List Nat :=
  (s.attack_table ++ s.defense_table).map Card.rank

/-- `Game::legal_attacks`, `game.rs` lines 234-269: with an empty attack
table every card of the attacker's hand opens; otherwise `StopAttack` plus
every hand card whose rank is already on a table. -/
def GameState.legal_attacks (s : GameState) : List Action :=
  match s.attack_table with
  | [] => s.attacker_hand.map Action.Attack
  | _ :: _ =>
    Action.StopAttack ::
      (s.attacker_hand.filter
        (fun card => s.ranks.contains card.rank)).map Action.Attack

/-- The defense predicate from `Game::legal_defenses`, `game.rs`
lines 287-307, as it is written in the source. -/
def beats_code (tsuit : Suit) (last_attack card : Card) : Bool :=
  if last_attack.suit = tsuit then
    card.suit = tsuit && decide (last_attack.rank < card.rank)
  else
    card.suit = tsuit || (card.suit = last_attack.suit
      && decide (last_attack.rank < card.rank))

/-- `Game::legal_defenses`, `game.rs` lines 272-316. The Rust code indexes
`attack_table[defense_table.len()]` and would panic when that is out of
bounds; that case is embedded as the bare `[Take]` list and is unreachable
whenever the defender legitimately acts. -/
def GameState.legal_defenses (s : GameState) : List Action :=
  match s.attack_table.get? s.defense_table.length with
  | none => [Action.Take]
  | some last_attack =>
    let tsuit := s.visible_card.suit
    Action.Take ::
      (s.defender_hand.filter
        (fun card => beats_code tsuit last_attack card)).map Action.Defend

/-- `Game::legal_actions`, `game.rs` lines 318-327. -/
def GameState.legal_actions (s : GameState) : List Action :=
  if s.acting_player = s.defending_player then s.legal_defenses
  else s.legal_attacks

/-- `det_first_attacker`, `game.rs` lines 15-44: compare the lowest
trump-suit ranks; only the ranks of the `min_by_key` results are used. -/
def det_first_attacker (hand1 hand2 : List Card) (suit : Suit) : GamePlayer :=
  let min1c := ((hand1.filter (fun x => x.suit = suit)).map Card.rank).min?
  let min2c := ((hand2.filter (fun x => x.suit = suit)).map Card.rank).min?
  match min1c, min2c with
  | some rank1, some rank2 =>
    if rank1 < rank2 then GamePlayer.Player1 else GamePlayer.Player2
  | some _, none => GamePlayer.Player1
  | none, some _ => GamePlayer.Player2
  | none, none => GamePlayer.Player1

/-- The match object, `game.rs` lines 10-13. -/
structure Game where
  history : List GameState
  game_state : GameState
deriving DecidableEq

/-- `Game::new`, `game.rs` lines 47-71. The random shuffle result is the
parameter `shuffled`; the visible card is peeked (NOT drawn) from the bottom
of the deck after dealing 6 cards to each hand. `get_first().unwrap()` is
embedded with a `getD` whose default is unreachable for a 36-card deck. -/
def Game.new (shuffled : List Card) : Game :=
  let deck0 : Deck := ⟨shuffled⟩
  let r1 := deck0.draw_n 6
  let r2 := r1.2.draw_n 6
  let visible_card := (r2.2.get_first).getD { suit := Suit.Spades, rank := 6 }
  let first_attacker := det_first_attacker r1.1 r2.1 visible_card.suit
  { history := []
    game_state :=
      { deck := r2.2
        attack_table := []
        defense_table := []
        hand1 := r1.1
        hand2 := r2.1
        acting_player := first_attacker
        defending_player := first_attacker.other
        visible_card
        defender_has_taken := false
        graveyard := [] } }

/-- The outcome of `Game::step`: the Rust method mutates `self` and returns
`Result<(), &str>`; `ok` records whether it returned `Ok`. -/
structure StepResult where
  ok : Bool
  game : Game
deriving DecidableEq

/-- The dispatch `match action` inside `Game::step`, `game.rs`
lines 375-380, factored into a named function. -/
def GameState.applyAction (s : GameState) (action : Action) : GameState :=
  match action with
  | Action.StopAttack => s.handle_stop_attack
  | Action.Take => s.handle_take
  | Action.Attack card => s.handle_attack card
  | Action.Defend card => s.handle_defense card

/-- `Game::step`, `game.rs` lines 368-383: the pre-move state is pushed on
the history BEFORE the legality check; an illegal action is rejected with no
other mutation. -/
def Game.step (g : Game) (action : Action) : StepResult :=
  let g1 : Game := { g with history := g.history ++ [g.game_state] }
  if action ∈ g.game_state.legal_actions then
    { ok := true
      game := { g1 with game_state := g.game_state.applyAction action } }
  else
    { ok := false, game := g1 }

/-- `Game::get_winner`, `game.rs` lines 389-402, written with the slice
pattern arms in source order. -/
def Game.get_winner (g : Game) : Option GamePlayer :=
  let h1 := g.game_state.hand1.length
  let h2 := g.game_state.hand2.length
  let d := g.game_state.deck.len
  if 1 ≤ d ∧ d ≤ 52 then none
  else if h1 = 0 ∧ h2 = 0 ∧ d = 0 then none
  else if h1 = 0 then some GamePlayer.Player1
  else if h2 = 0 then some GamePlayer.Player2
  else none

/-- `Game::get_rewards`, `game.rs` lines 404-411 (`f32` constants as `Int`). -/
def Game.get_rewards (g : Game) : Int × Int :=
  match g.get_winner with
  | some GamePlayer.Player1 => (1, -1)
  | some GamePlayer.Player2 => (-1, 1)
  | none => (0, 0)

/-- `Game::is_over`, `game.rs` lines 413-426, slice pattern arms in source
order. -/
def Game.is_over (g : Game) : Bool :=
  let h1 := g.game_state.hand1.length
  let h2 := g.game_state.hand2.length
  let d := g.game_state.deck.len
  if 1 ≤ d ∧ d ≤ 52 then false
  else if h1 = 0 ∧ h2 = 0 ∧ d = 0 then true
  else if h1 = 0 then true
  else if h2 = 0 then true
  else false

/-- Total number of cards in a state: deck + both hands + both tables +
graveyard. -/
def GameState.total (s : GameState) : Nat :=
  s.deck.cards.length + s.hand1.length + s.hand2.length
    + s.attack_table.length + s.defense_table.length + s.graveyard.length

/-- The states the engine can actually be in: a fresh game built from some
permutation of the full 36-card deck, followed by any accepted steps. -/
inductive Reachable : Game → Prop where
  | base (shuffled : List Card)
      (h : List.Perm shuffled (Deck.new 6).cards) :
      Reachable (Game.new shuffled)
  | step (g : Game) (a : Action) (hg : Reachable g)
      (hok : (g.step a).ok = true) :
      Reachable ((g.step a).game)

/-- Fold a list of actions through `Game::step`. -/
def runSteps (g : Game) : List Action → Game
  | [] => g
  | a :: rest => runSteps ((g.step a).game) rest

/-- All the steps of the fold were accepted. -/
def stepsOk (g : Game) : List Action → Bool
  | [] => true
  | a :: rest => (g.step a).ok && stepsOk ((g.step a).game) rest

/-- Shorthand: a spade of the given rank. -/
def sp (r : Nat) : Card := { suit := Suit.Spades, rank := r }

/-- Shorthand: a heart of the given rank. -/
def he (r : Nat) : Card := { suit := Suit.Hearts, rank := r }

/-- Shorthand: a diamond of the given rank. -/
def di (r : Nat) : Card := { suit := Suit.Diamonds, rank := r }

/-- Shorthand: a club of the given rank. -/
def cl (r : Nat) : Card := { suit := Suit.Clubs, rank := r }

/-- A concrete shuffle (a permutation of the 36-card deck). Index 0 is the
bottom of the draw pile, so the visible trump card is the ace of spades; the
last six cards are dealt to hand1, the six before them to hand2. -/
def deckA : List Card :=
  [sp 14,
   sp 8, sp 9, sp 10, sp 11, sp 12, sp 13,
   he 9, he 12, he 13, he 14,
   di 12, di 13, di 14,
   cl 10, cl 11, cl 12, cl 13, cl 14,
   he 8, di 8, cl 8, di 11, cl 9, he 10,
   he 7, cl 6, di 6, he 6, sp 6,
   di 9, di 10, he 11, cl 7, di 7, sp 7]

/-- A 23-action playthrough of `Game.new deckA`, every step accepted, after
which the attack table holds SEVEN cards: Player2 first takes two rank-7
cards, then wins the defending role by a clean defense, and finally attacks
with all four sixes and, after the defender declares a take, with three
sevens on a six-card table. -/
def actionsA : List Action :=
  [Action.Attack (he 10), Action.StopAttack, Action.Defend (he 11),
   Action.StopAttack,
   Action.Attack (di 7), Action.StopAttack, Action.Take,
   Action.Attack (cl 7), Action.StopAttack,
   Action.Attack (di 10), Action.StopAttack, Action.Defend (di 11),
   Action.StopAttack,
   Action.Attack (sp 6), Action.Attack (he 6), Action.Attack (di 6),
   Action.Attack (cl 6), Action.StopAttack, Action.Defend (sp 7),
   Action.Take, Action.Attack (he 7), Action.Attack (di 7),
   Action.Attack (cl 7)]

/-- A 13-action prefix over `deckA` reaching a state where the acting player
is the attacker, one attack card is defended, one is still undefended, no
take is pending — and StopAttack is nevertheless legal. -/
def actionsA1 : List Action :=
  [Action.Attack (he 10), Action.StopAttack, Action.Defend (he 11),
   Action.StopAttack,
   Action.Attack (di 7), Action.StopAttack, Action.Take,
   Action.Attack (cl 7), Action.StopAttack,
   Action.Attack (di 9), Action.StopAttack, Action.Defend (di 11),
   Action.Attack (cl 9)]

/-- An 8-action prefix over `deckA` reaching a state where the defender has
declared a take (`defender_has_taken = true`) and the attacker (Player1) is
to act. -/
def actionsA3 : List Action :=
  [Action.Attack (he 10), Action.StopAttack, Action.Defend (he 11),
   Action.StopAttack,
   Action.Attack (di 7), Action.StopAttack, Action.Take,
   Action.Attack (cl 7)]

/-- A second concrete shuffle. The visible trump card is the ace of hearts;
hand1 gets the four sixes plus 8 of hearts and 9 of spades, hand2 gets cards
that can defend all of them. -/
def deckB : List Card :=
  [he 14,
   sp 7, he 7, he 11, he 12, he 13,
   di 7, di 9, di 10, cl 7, cl 9, cl 10,
   cl 11, cl 12, cl 13, cl 14, di 11, di 12,
   di 13, di 14, sp 11, sp 12, sp 13, sp 14,
   sp 10, he 10, he 9, cl 8, di 8, sp 8,
   sp 9, he 8, he 6, cl 6, di 6, sp 6]

/-- A 13-action playthrough over `deckB`: Player1 attacks six times, Player2
defends five of the six attacks; one more `Defend (sp 10)` fills the defense
table to 6 and triggers the round boundary inside the Defend transition. -/
def actionsB : List Action :=
  [Action.Attack (sp 6), Action.Attack (di 6), Action.Attack (cl 6),
   Action.Attack (he 6), Action.StopAttack,
   Action.Defend (sp 8), Action.Defend (di 8), Action.Defend (cl 8),
   Action.Defend (he 9),
   Action.Attack (he 8), Action.Attack (sp 9), Action.StopAttack,
   Action.Defend (he 10)]

/-- A concrete state where `Take` ends the round at once: the defender's
single card cannot outlast the one undefended attack, so the table is
absorbed and both hands refill. -/
def wTake : Game :=
  Game.mk [] (GameState.mk ⟨[sp 9, sp 10]⟩ [cl 6] [] [he 7] [di 8, di 9]
    GamePlayer.Player1 GamePlayer.Player1 (sp 14) false [])

/-- A concrete state with a pending take (`defender_has_taken` set): the
attacker's `StopAttack` finalizes it. -/
def wFinalize : Game :=
  Game.mk [] (GameState.mk ⟨[sp 9, sp 10]⟩ [cl 6] [] [he 7] [di 8]
    GamePlayer.Player2 GamePlayer.Player1 (sp 14) true [])

/-- A concrete state with every attack answered: the attacker's
`StopAttack` clears the round. -/
def wClear : Game :=
  Game.mk [] (GameState.mk ⟨[sp 9, sp 10]⟩ [cl 6] [cl 7] [he 7] [di 8]
    GamePlayer.Player2 GamePlayer.Player1 (sp 14) false [])

/-- A concrete state where `Defend (cl 7)` empties the defender's hand and
triggers the round boundary inside the Defend transition. -/
def wDefend : Game :=
  Game.mk [] (GameState.mk ⟨[di 10, di 11]⟩ [cl 6] [] [cl 7] [he 8]
    GamePlayer.Player1 GamePlayer.Player1 (sp 14) false [])

/-- Drawing n cards conserves cards: drawn plus remaining equals the
original deck size. -/
theorem Deck.draw_n_length (d : Deck) (n : Nat) :
    (d.draw_n n).1.length + (d.draw_n n).2.cards.length = d.cards.length := by
  induction n generalizing d with
  | zero => simp [Deck.draw_n]
  | succ m ih =>
    unfold Deck.draw_n Deck.draw
    cases hd : d.cards.getLast? with
    | none => simp
    | some c =>
      have hne : d.cards ≠ [] := by
        intro he
        rw [he] at hd
        simp at hd
      have hpos : 0 < d.cards.length := List.length_pos.mpr hne
      have := ih ⟨d.cards.dropLast⟩
      simp only [List.length_cons]
      simp only [List.length_dropLast] at this
      omega

/-- When the deck is nonempty and at least one card is requested, the deck
top (the last element of the card list) is among the drawn cards. -/
theorem Deck.top_mem_draw_n (d : Deck) (n : Nat) (t : Card)
    (htop : d.cards.getLast? = some t) (hn : 0 < n) :
    t ∈ (d.draw_n n).1 := by
  cases n with
  | zero => omega
  | succ m =>
    unfold Deck.draw_n Deck.draw
    rw [htop]
    exact List.mem_cons_self t _

/-- The total card count ignores the acting player. -/
theorem GameState.total_set_acting (t : GameState) (p : GamePlayer) :
    ({ t with acting_player := p } : GameState).total = t.total := rfl

/-- The total card count ignores the defending player. -/
theorem GameState.total_set_defending (t : GameState) (p : GamePlayer) :
    ({ t with defending_player := p } : GameState).total = t.total := rfl

/-- The total card count ignores the take flag. -/
theorem GameState.total_set_flag (t : GameState) (b : Bool) :
    ({ t with defender_has_taken := b } : GameState).total = t.total := rfl

/-- The total card count ignores the take flag and defending player. -/
theorem GameState.total_set_flag_defending (t : GameState) (b : Bool)
    (p : GamePlayer) :
    ({ t with defender_has_taken := b, defending_player := p } :
      GameState).total = t.total := rfl

/-- Refilling one player moves cards from the deck to a hand: the total is
unchanged. -/
theorem GameState.refill_one_total (s : GameState) (p : GamePlayer) :
    (s.refill_one p).total = s.total := by
  cases p
  case Player1 =>
    have hd := Deck.draw_n_length s.deck (6 - s.hand1.length)
    simp only [GameState.refill_one, GameState.getHand]
    split
    · simp only [GameState.total, List.length_append]
      omega
    · rfl
  case Player2 =>
    have hd := Deck.draw_n_length s.deck (6 - s.hand2.length)
    simp only [GameState.refill_one, GameState.getHand]
    split
    · simp only [GameState.total, List.length_append]
      omega
    · rfl

/-- `refill_hands` preserves the total card count. -/
theorem GameState.refill_hands_total (s : GameState) :
    s.refill_hands.total = s.total := by
  unfold GameState.refill_hands
  cases hdp : s.defending_player <;>
    simp only [List.foldl_cons, List.foldl_nil] <;>
    rw [GameState.refill_one_total, GameState.refill_one_total]

/-- `add_table_to_defender` preserves the total card count. -/
theorem GameState.add_table_total (s : GameState) :
    s.add_table_to_defender.total = s.total := by
  cases hdp : s.defending_player <;>
    simp only [GameState.add_table_to_defender, hdp] <;>
    simp only [GameState.total, List.length_append, List.length_nil] <;>
    omega

/-- `clear_table` preserves the total card count. -/
theorem GameState.clear_table_total (s : GameState) :
    s.clear_table.total = s.total := by
  simp only [GameState.clear_table, GameState.total, List.length_append,
    List.length_nil]
  omega

/-- `handle_take` preserves the total card count. -/
theorem GameState.handle_take_total (s : GameState) :
    s.handle_take.total = s.total := by
  simp only [GameState.handle_take]
  split
  · rw [GameState.total_set_acting, GameState.refill_hands_total,
      GameState.add_table_total]
  · rfl

/-- `handle_stop_attack` preserves the total card count. -/
theorem GameState.handle_stop_attack_total (s : GameState) :
    s.handle_stop_attack.total = s.total := by
  simp only [GameState.handle_stop_attack]
  split
  · rw [GameState.total_set_flag, GameState.refill_hands_total,
      GameState.add_table_total]
  · split
    · rw [GameState.total_set_flag, GameState.total_set_acting,
        GameState.refill_hands_total, GameState.total_set_defending,
        GameState.clear_table_total]
    · rfl

/-- `handle_attack` preserves the total card count when the attacked card is
in the attacker's hand (which legality guarantees). -/
theorem GameState.handle_attack_total (s : GameState) (card : Card)
    (h : card ∈ s.attacker_hand) :
    (s.handle_attack card).total = s.total := by
  unfold GameState.handle_attack
  unfold GameState.attacker_hand at h
  cases hdp : s.defending_player.other <;>
    simp only [hdp] at h <;>
    simp only [hdp] <;>
    simp only [GameState.total, List.length_append, List.length_cons,
      List.length_nil, List.length_erase_of_mem h] <;>
    have := List.length_pos.mpr (List.ne_nil_of_mem h) <;>
    omega

/-- `handle_defense` preserves the total card count when the defense card is
in the defender's hand (which legality guarantees). -/
theorem GameState.handle_defense_total (s : GameState) (card : Card)
    (h : card ∈ s.defender_hand) :
    (s.handle_defense card).total = s.total := by
  unfold GameState.defender_hand at h
  simp only [GameState.handle_defense]
  cases hdp : s.defending_player <;>
    simp only [hdp] at h <;>
    simp only [hdp] <;>
    have hpos := List.length_pos.mpr (List.ne_nil_of_mem h) <;>
    split
  case Player1.isTrue =>
    rw [GameState.total_set_flag_defending, GameState.refill_hands_total,
      GameState.clear_table_total]
    simp only [GameState.total, List.length_append, List.length_cons,
      List.length_nil, List.length_erase_of_mem h]
    omega
  case Player1.isFalse =>
    split <;>
      simp only [GameState.total, List.length_append, List.length_cons,
        List.length_nil, List.length_erase_of_mem h] <;>
      omega
  case Player2.isTrue =>
    rw [GameState.total_set_flag_defending, GameState.refill_hands_total,
      GameState.clear_table_total]
    simp only [GameState.total, List.length_append, List.length_cons,
      List.length_nil, List.length_erase_of_mem h]
    omega
  case Player2.isFalse =>
    split <;>
      simp only [GameState.total, List.length_append, List.length_cons,
        List.length_nil, List.length_erase_of_mem h] <;>
      omega

/-- A legal attack card is in the attacker's hand. -/
theorem mem_attacker_hand_of_legal (s : GameState) (c : Card)
    (h : Action.Attack c ∈ s.legal_actions) : c ∈ s.attacker_hand := by
  unfold GameState.legal_actions at h
  split at h
  case isTrue =>
    unfold GameState.legal_defenses at h
    split at h <;> simp_all
  case isFalse =>
    unfold GameState.legal_attacks at h
    split at h
    · obtain ⟨x, hx, he⟩ := List.mem_map.mp h
      cases he
      exact hx
    · rcases List.mem_cons.mp h with h1 | h1
      · cases h1
      · obtain ⟨x, hx, he⟩ := List.mem_map.mp h1
        cases he
        exact (List.mem_filter.mp hx).1

/-- A legal defense card is in the defender's hand. -/
theorem mem_defender_hand_of_legal (s : GameState) (c : Card)
    (h : Action.Defend c ∈ s.legal_actions) : c ∈ s.defender_hand := by
  unfold GameState.legal_actions at h
  split at h
  case isTrue =>
    unfold GameState.legal_defenses at h
    split at h
    · simp at h
    · rcases List.mem_cons.mp h with h1 | h1
      · cases h1
      · obtain ⟨x, hx, he⟩ := List.mem_map.mp h1
        cases he
        exact (List.mem_filter.mp hx).1
  case isFalse =>
    unfold GameState.legal_attacks at h
    split at h <;> simp_all

/-- An accepted step applies the handler that matches the action to the
pre-move state, and the action was legal there. -/
theorem step_accepted (g : Game) (a : Action) (hok : (g.step a).ok = true) :
    a ∈ g.game_state.legal_actions
      ∧ (g.step a).game.game_state = g.game_state.applyAction a := by
  have hmem : a ∈ g.game_state.legal_actions := by
    by_contra hcon
    unfold Game.step at hok
    rw [if_neg hcon] at hok
    simp at hok
  refine ⟨hmem, ?_⟩
  unfold Game.step
  rw [if_pos hmem]

/-- Claim C7. Total card conservation: every state reachable from a fresh
game by accepted transitions has exactly 36 cards spread over deck, hands,
tables and graveyard. -/
theorem C7_card_conservation (g : Game) (h : Reachable g) :
    g.game_state.total = 36 := by
  induction h with
  | base shuffled hperm =>
    have hlen : (⟨shuffled⟩ : Deck).cards.length = 36 := by
      show shuffled.length = 36
      rw [hperm.length_eq]
      rfl
    have h1 := Deck.draw_n_length ⟨shuffled⟩ 6
    have h2 := Deck.draw_n_length ((⟨shuffled⟩ : Deck).draw_n 6).2 6
    simp only [Game.new, GameState.total, List.length_nil]
    omega
  | step g a hg hok ih =>
    obtain ⟨hmem, hstate⟩ := step_accepted g a hok
    rw [hstate]
    unfold GameState.applyAction
    cases a with
    | StopAttack => rw [GameState.handle_stop_attack_total]; exact ih
    | Take => rw [GameState.handle_take_total]; exact ih
    | Attack card =>
      rw [GameState.handle_attack_total g.game_state card
        (mem_attacker_hand_of_legal _ _ hmem)]
      exact ih
    | Defend card =>
      rw [GameState.handle_defense_total g.game_state card
        (mem_defender_hand_of_legal _ _ hmem)]
      exact ih

/-- Witness for C7 at a concrete input: the identity shuffle. -/
theorem C7_card_conservation_witness :
    (Game.new (Deck.new 6).cards).game_state.total = 36 :=
  C7_card_conservation _ (Reachable.base _ (List.Perm.refl _))

/-- Folding accepted steps preserves reachability. -/
theorem reachable_runSteps (g : Game) (acts : List Action)
    (hg : Reachable g) (hok : stepsOk g acts = true) :
    Reachable (runSteps g acts) := by
  induction acts generalizing g with
  | nil => exact hg
  | cons a rest ih =>
    unfold stepsOk at hok
    rw [Bool.and_eq_true] at hok
    obtain ⟨h1, h2⟩ := hok
    exact ih _ (Reachable.step g a hg h1) h2

/-- `refill_one` never changes the acting player. -/
theorem GameState.refill_one_acting (s : GameState) (p : GamePlayer) :
    (s.refill_one p).acting_player = s.acting_player := by
  cases p <;> simp only [GameState.refill_one, GameState.getHand] <;>
    split <;> rfl

/-- `refill_hands` never changes the acting player. -/
theorem GameState.refill_hands_acting (s : GameState) :
    s.refill_hands.acting_player = s.acting_player := by
  unfold GameState.refill_hands
  cases hdp : s.defending_player <;>
    simp only [List.foldl_cons, List.foldl_nil] <;>
    rw [GameState.refill_one_acting, GameState.refill_one_acting]

/-- `add_table_to_defender` never changes the acting player. -/
theorem GameState.add_table_acting (s : GameState) :
    s.add_table_to_defender.acting_player = s.acting_player := by
  unfold GameState.add_table_to_defender
  cases hdp : s.defending_player <;> rfl

/-- `refill_one` of a player leaves the other hand alone. -/
theorem GameState.refill_one_getHand_other (s : GameState) (p q : GamePlayer)
    (h : p ≠ q) : (s.refill_one p).getHand q = s.getHand q := by
  cases p <;> cases q <;> first
  | exact absurd rfl h
  | (simp only [GameState.refill_one, GameState.getHand]
     split <;> rfl)

/-- `refill_one` extends the chosen hand with a top-up draw from the deck
(also correct when no card is needed, since a zero-draw is empty). -/
theorem GameState.refill_one_getHand_self (s : GameState) (p : GamePlayer) :
    (s.refill_one p).getHand p
      = s.getHand p ++ (s.deck.draw_n (6 - (s.getHand p).length)).1 := by
  cases p <;> simp only [GameState.refill_one, GameState.getHand] <;> split
  case Player1.isTrue => rfl
  case Player1.isFalse h =>
    have h0 : 6 - s.hand1.length = 0 := by omega
    rw [h0]
    simp [Deck.draw_n]
  case Player2.isTrue => rfl
  case Player2.isFalse h =>
    have h0 : 6 - s.hand2.length = 0 := by omega
    rw [h0]
    simp [Deck.draw_n]

/-- After `refill_one` the deck is what a top-up draw leaves behind. -/
theorem GameState.refill_one_deck (s : GameState) (p : GamePlayer) :
    (s.refill_one p).deck
      = (s.deck.draw_n (6 - (s.getHand p).length)).2 := by
  cases p <;> simp only [GameState.refill_one, GameState.getHand] <;> split
  case Player1.isTrue => rfl
  case Player1.isFalse h =>
    have h0 : 6 - s.hand1.length = 0 := by omega
    rw [h0]
    simp [Deck.draw_n]
  case Player2.isTrue => rfl
  case Player2.isFalse h =>
    have h0 : 6 - s.hand2.length = 0 := by omega
    rw [h0]
    simp [Deck.draw_n]

/-- `refill_one` never changes the defending player. -/
theorem GameState.refill_one_defending (s : GameState) (p : GamePlayer) :
    (s.refill_one p).defending_player = s.defending_player := by
  cases p <;> simp only [GameState.refill_one, GameState.getHand] <;>
    split <;> rfl

/-- The draw order of `refill_hands`: the player who is NOT the current
defender draws first (straight from the deck), and the current defender
draws second, from whatever that first draw left behind. -/
theorem GameState.refill_hands_spec (s : GameState) :
    (s.refill_hands.getHand s.defending_player.other
        = s.getHand s.defending_player.other
          ++ (s.deck.draw_n
                (6 - (s.getHand s.defending_player.other).length)).1)
    ∧ (s.refill_hands.getHand s.defending_player
        = s.getHand s.defending_player
          ++ (((s.deck.draw_n
                  (6 - (s.getHand s.defending_player.other).length)).2).draw_n
                (6 - (s.getHand s.defending_player).length)).1)
    ∧ s.refill_hands.defending_player = s.defending_player := by
  have hone := GameState.refill_one_getHand_self
  have hoth := GameState.refill_one_getHand_other
  cases hdp : s.defending_player <;>
    unfold GameState.refill_hands <;>
    simp only [hdp, List.foldl_cons, List.foldl_nil, GamePlayer.other]
  case Player1 =>
    refine ⟨?_, ?_, ?_⟩
    · rw [hoth _ GamePlayer.Player1 GamePlayer.Player2 (by intro hc; cases hc),
        hone]
    · rw [hone, hoth _ GamePlayer.Player2 GamePlayer.Player1
        (by intro hc; cases hc), GameState.refill_one_deck]
    · rw [GameState.refill_one_defending, GameState.refill_one_defending, hdp]
  case Player2 =>
    refine ⟨?_, ?_, ?_⟩
    · rw [hoth _ GamePlayer.Player2 GamePlayer.Player1 (by intro hc; cases hc),
        hone]
    · rw [hone, hoth _ GamePlayer.Player1 GamePlayer.Player2
        (by intro hc; cases hc), GameState.refill_one_deck]
    · rw [GameState.refill_one_defending, GameState.refill_one_defending, hdp]

/-- Claim C1, counterexample. A reachable state (13 accepted actions from a
concrete shuffle) in which the acting player is the attacker, the attack
table holds two cards of which only one is defended, no take is pending —
and `StopAttack` IS in the legal-action set, contradicting the claim that it
is excluded while undefended cards remain. -/
theorem C1_counterexample :
    Reachable (runSteps (Game.new deckA) actionsA1)
      ∧ (runSteps (Game.new deckA) actionsA1).game_state.acting_player
          ≠ (runSteps (Game.new deckA) actionsA1).game_state.defending_player
      ∧ (runSteps (Game.new deckA) actionsA1).game_state.defender_has_taken
          = false
      ∧ (runSteps (Game.new deckA) actionsA1).game_state.attack_table.length
          = 2
      ∧ (runSteps (Game.new deckA) actionsA1).game_state.defense_table.length
          = 1
      ∧ Action.StopAttack
          ∈ (runSteps (Game.new deckA) actionsA1).game_state.legal_actions :=
  ⟨reachable_runSteps _ _ (Reachable.base deckA (by decide)) (by decide),
   by decide, by decide, by decide, by decide, by decide⟩

/-- Claim C1, amended: whenever the acting player is the attacker,
`StopAttack` is legal exactly when the attack table is nonempty — whether or
not undefended cards remain (playing it with undefended cards merely passes
the move to the defender). -/
theorem C1_amended_stop_attack_iff (s : GameState)
    (h : s.acting_player ≠ s.defending_player) :
    Action.StopAttack ∈ s.legal_actions ↔ s.attack_table ≠ [] := by
  unfold GameState.legal_actions
  rw [if_neg h]
  cases htab : s.attack_table with
  | nil => simp [GameState.legal_attacks, htab]
  | cons hd tl => simp [GameState.legal_attacks, htab]

/-- Witness for the amended C1 at a concrete state (a fresh game, where the
attack table is empty and StopAttack is indeed illegal). -/
theorem C1_amended_stop_attack_iff_witness :
    Action.StopAttack ∈ (Game.new deckA).game_state.legal_actions
      ↔ (Game.new deckA).game_state.attack_table ≠ [] :=
  C1_amended_stop_attack_iff _ (by decide)

/-- Claim C3, counterexample. A reachable state (8 accepted actions from a
concrete shuffle) with a pending take: the attacker Player1 plays the
accepted finalizing `StopAttack`, and the acting player is still Player1
afterwards — the flip the claim demands for every `StopAttack` case does not
happen in the finalize-take branch. -/
theorem C3_counterexample :
    Reachable (runSteps (Game.new deckA) actionsA3)
      ∧ (runSteps (Game.new deckA) actionsA3).game_state.defender_has_taken
          = true
      ∧ (runSteps (Game.new deckA) actionsA3).game_state.acting_player
          = GamePlayer.Player1
      ∧ ((runSteps (Game.new deckA) actionsA3).step Action.StopAttack).ok
          = true
      ∧ ((runSteps (Game.new deckA) actionsA3).step
            Action.StopAttack).game.game_state.acting_player
          = GamePlayer.Player1 :=
  ⟨reachable_runSteps _ _ (Reachable.base deckA (by decide)) (by decide),
   by decide, by decide, by decide, by decide⟩

/-- Claim C3, amended: an accepted `StopAttack` flips the acting player in
every case EXCEPT the finalize-take case: when `defender_has_taken` is set,
the acting player is unchanged (the attacker keeps the move for the next
round). -/
theorem C3_amended_stop_attack_acting (g : Game)
    (h : Action.StopAttack ∈ g.game_state.legal_actions) :
    (g.game_state.defender_has_taken = false →
        (g.step Action.StopAttack).game.game_state.acting_player
          = g.game_state.acting_player.other)
      ∧ (g.game_state.defender_has_taken = true →
        (g.step Action.StopAttack).game.game_state.acting_player
          = g.game_state.acting_player) := by
  have hstep : (g.step Action.StopAttack).game.game_state
      = g.game_state.handle_stop_attack := by
    unfold Game.step
    rw [if_pos h]
    rfl
  rw [hstep]
  constructor
  · intro hf
    simp only [GameState.handle_stop_attack, hf, Bool.false_eq_true,
      if_false]
    split
    case isTrue =>
      rw [GameState.refill_hands_acting]
      rfl
    case isFalse => rfl
  · intro ht
    simp only [GameState.handle_stop_attack, ht, if_true]
    rw [GameState.refill_hands_acting, GameState.add_table_acting]

/-- Witness for the amended C3 at the concrete reachable take-pending state
of `C3_counterexample`. -/
theorem C3_amended_stop_attack_acting_witness :
    ((runSteps (Game.new deckA) actionsA3).game_state.defender_has_taken
        = false →
      ((runSteps (Game.new deckA) actionsA3).step
          Action.StopAttack).game.game_state.acting_player
        = (runSteps (Game.new deckA) actionsA3).game_state.acting_player.other)
    ∧ ((runSteps (Game.new deckA) actionsA3).game_state.defender_has_taken
        = true →
      ((runSteps (Game.new deckA) actionsA3).step
          Action.StopAttack).game.game_state.acting_player
        = (runSteps (Game.new deckA) actionsA3).game_state.acting_player) :=
  C3_amended_stop_attack_acting _ (by decide)

/-- Claim C8, evaluated at the failing input: after 23 accepted actions from
a concrete shuffle the attack table holds SEVEN cards. `legal_attacks` never
caps the table at 6 (unlike `handle_take`, which treats 6 as full), so an
attacker holding more than six rank-matching cards after absorbing earlier
takes can overfill the table. -/
theorem C8_attack_table_exceeds_six :
    Reachable (runSteps (Game.new deckA) actionsA)
      ∧ (runSteps (Game.new deckA) actionsA).game_state.attack_table.length
          = 7 :=
  ⟨reachable_runSteps _ _ (Reachable.base deckA (by decide)) (by decide),
   by decide⟩

/-- Hands are untouched by updating the take flag and the defending role. -/
theorem GameState.getHand_set_fd (t : GameState) (b : Bool)
    (p q : GamePlayer) :
    ({ t with defender_has_taken := b, defending_player := p } :
      GameState).getHand q = t.getHand q := by
  cases q <;> rfl

/-- The defending player after updating the flag and the defending role. -/
theorem GameState.defending_set_fd (t : GameState) (b : Bool)
    (p : GamePlayer) :
    ({ t with defender_has_taken := b, defending_player := p } :
      GameState).defending_player = p := rfl

set_option maxHeartbeats 1000000 in
/-- Claim C2, amended. After EVERY round boundary both hands are refilled
up to 6 cards (fewer if the deck is exhausted), starting with the player who
is not the defender at the moment `refill_hands` runs. The four boundary
kinds, in order: (1) a round-ending `Take` and (2) a finalize-take
`StopAttack` keep the defending role, so the next round's attacker draws
first; (3) a round-clearing `StopAttack` flips the defending role BEFORE
refilling, so again the next round's attacker (the old defender) draws
first; but (4) the boundary inside the Defend transition refills BEFORE the
flip, so the OLD attacker — who becomes the next round's defender — draws
first and the next attacker draws second, from what the first draw left. -/
theorem C2_amended_refill_order :
    (∀ g : Game,
      Action.Take ∈ g.game_state.legal_actions →
      (g.game_state.attack_table.length = 6
        ∨ g.game_state.defender_hand.length
            ≤ g.game_state.attack_table.length
              - g.game_state.defense_table.length) →
      ((g.step Action.Take).game.game_state.defending_player
          = g.game_state.defending_player
        ∧ (g.step Action.Take).game.game_state.getHand
              g.game_state.defending_player.other
            = g.game_state.attacker_hand
                ++ (g.game_state.deck.draw_n
                      (6 - g.game_state.attacker_hand.length)).1
        ∧ (g.step Action.Take).game.game_state.getHand
              g.game_state.defending_player
            = (g.game_state.defender_hand ++ g.game_state.defense_table
                  ++ g.game_state.attack_table)
                ++ (((g.game_state.deck.draw_n
                        (6 - g.game_state.attacker_hand.length)).2).draw_n
                      (6 - (g.game_state.defender_hand
                          ++ g.game_state.defense_table
                          ++ g.game_state.attack_table).length)).1))
    ∧ (∀ g : Game,
      Action.StopAttack ∈ g.game_state.legal_actions →
      g.game_state.defender_has_taken = true →
      ((g.step Action.StopAttack).game.game_state.defending_player
          = g.game_state.defending_player
        ∧ (g.step Action.StopAttack).game.game_state.getHand
              g.game_state.defending_player.other
            = g.game_state.attacker_hand
                ++ (g.game_state.deck.draw_n
                      (6 - g.game_state.attacker_hand.length)).1
        ∧ (g.step Action.StopAttack).game.game_state.getHand
              g.game_state.defending_player
            = (g.game_state.defender_hand ++ g.game_state.defense_table
                  ++ g.game_state.attack_table)
                ++ (((g.game_state.deck.draw_n
                        (6 - g.game_state.attacker_hand.length)).2).draw_n
                      (6 - (g.game_state.defender_hand
                          ++ g.game_state.defense_table
                          ++ g.game_state.attack_table).length)).1))
    ∧ (∀ g : Game,
      Action.StopAttack ∈ g.game_state.legal_actions →
      g.game_state.defender_has_taken = false →
      g.game_state.num_undefended = 0 →
      ((g.step Action.StopAttack).game.game_state.defending_player
          = g.game_state.defending_player.other
        ∧ (g.step Action.StopAttack).game.game_state.getHand
              g.game_state.defending_player
            = g.game_state.defender_hand
                ++ (g.game_state.deck.draw_n
                      (6 - g.game_state.defender_hand.length)).1
        ∧ (g.step Action.StopAttack).game.game_state.getHand
              g.game_state.defending_player.other
            = g.game_state.attacker_hand
                ++ (((g.game_state.deck.draw_n
                        (6 - g.game_state.defender_hand.length)).2).draw_n
                      (6 - g.game_state.attacker_hand.length)).1))
    ∧ (∀ (g : Game) (c : Card),
      Action.Defend c ∈ g.game_state.legal_actions →
      (g.game_state.defense_table.length + 1 = 6
        ∨ (g.game_state.defender_hand).erase c = []) →
      (((g.step (Action.Defend c)).game.game_state.defending_player
          = g.game_state.defending_player.other)
        ∧ ((g.step (Action.Defend c)).game.game_state.getHand
              g.game_state.defending_player.other
            = g.game_state.attacker_hand
                ++ (g.game_state.deck.draw_n
                      (6 - g.game_state.attacker_hand.length)).1)
        ∧ ((g.step (Action.Defend c)).game.game_state.getHand
              g.game_state.defending_player
            = (g.game_state.defender_hand).erase c
                ++ (((g.game_state.deck.draw_n
                        (6 - g.game_state.attacker_hand.length)).2).draw_n
                      (6 - ((g.game_state.defender_hand).erase
                          c).length)).1))) := by
  refine ⟨?_, ?_, ?_, ?_⟩
  · -- round-ending Take: defending role kept, next attacker draws first
    intro g htake hcond
    cases g with
    | mk hist st =>
      cases st with
      | mk d atk dfs h1 h2 ap dp vc ft gy =>
        have hstep :
            ((Game.mk hist (GameState.mk d atk dfs h1 h2 ap dp vc ft
                gy)).step Action.Take).game.game_state
              = (GameState.mk d atk dfs h1 h2 ap dp vc ft
                  gy).handle_take := by
          unfold Game.step
          rw [if_pos htake]
          rfl
        rw [hstep]
        cases dp
        case Player1 =>
          have hcond2 : atk.length = 6
              ∨ h1.length ≤ atk.length - dfs.length := hcond
          have hd : (GameState.mk d atk dfs h1 h2 ap GamePlayer.Player1 vc
                ft gy).handle_take
              = (let t := (GameState.mk d [] [] (h1 ++ dfs ++ atk) h2 ap
                  GamePlayer.Player1 vc ft gy).refill_hands
                 { t with acting_player := t.acting_player.other }) := by
            simp only [GameState.handle_take, GameState.defender_hand,
              GameState.add_table_to_defender]
            rw [if_pos hcond2]
          rw [hd]
          obtain ⟨hA, hB, hC⟩ := GameState.refill_hands_spec
            (GameState.mk d [] [] (h1 ++ dfs ++ atk) h2 ap
              GamePlayer.Player1 vc ft gy)
          exact ⟨hC, hA, hB⟩
        case Player2 =>
          have hcond2 : atk.length = 6
              ∨ h2.length ≤ atk.length - dfs.length := hcond
          have hd : (GameState.mk d atk dfs h1 h2 ap GamePlayer.Player2 vc
                ft gy).handle_take
              = (let t := (GameState.mk d [] [] h1 (h2 ++ dfs ++ atk) ap
                  GamePlayer.Player2 vc ft gy).refill_hands
                 { t with acting_player := t.acting_player.other }) := by
            simp only [GameState.handle_take, GameState.defender_hand,
              GameState.add_table_to_defender]
            rw [if_pos hcond2]
          rw [hd]
          obtain ⟨hA, hB, hC⟩ := GameState.refill_hands_spec
            (GameState.mk d [] [] h1 (h2 ++ dfs ++ atk) ap
              GamePlayer.Player2 vc ft gy)
          exact ⟨hC, hA, hB⟩
  · -- finalize-take StopAttack: defending role kept, attacker draws first
    intro g hmem hft
    cases g with
    | mk hist st =>
      cases st with
      | mk d atk dfs h1 h2 ap dp vc ft gy =>
        have hft2 : ft = true := hft
        subst hft2
        have hstep :
            ((Game.mk hist (GameState.mk d atk dfs h1 h2 ap dp vc true
                gy)).step Action.StopAttack).game.game_state
              = (GameState.mk d atk dfs h1 h2 ap dp vc true
                  gy).handle_stop_attack := by
          unfold Game.step
          rw [if_pos hmem]
          rfl
        rw [hstep]
        cases dp
        case Player1 =>
          have hd : (GameState.mk d atk dfs h1 h2 ap GamePlayer.Player1 vc
                true gy).handle_stop_attack
              = (let t := (GameState.mk d [] [] (h1 ++ dfs ++ atk) h2 ap
                  GamePlayer.Player1 vc true gy).refill_hands
                 { t with defender_has_taken := false }) := rfl
          rw [hd]
          obtain ⟨hA, hB, hC⟩ := GameState.refill_hands_spec
            (GameState.mk d [] [] (h1 ++ dfs ++ atk) h2 ap
              GamePlayer.Player1 vc true gy)
          exact ⟨hC, hA, hB⟩
        case Player2 =>
          have hd : (GameState.mk d atk dfs h1 h2 ap GamePlayer.Player2 vc
                true gy).handle_stop_attack
              = (let t := (GameState.mk d [] [] h1 (h2 ++ dfs ++ atk) ap
                  GamePlayer.Player2 vc true gy).refill_hands
                 { t with defender_has_taken := false }) := rfl
          rw [hd]
          obtain ⟨hA, hB, hC⟩ := GameState.refill_hands_spec
            (GameState.mk d [] [] h1 (h2 ++ dfs ++ atk) ap
              GamePlayer.Player2 vc true gy)
          exact ⟨hC, hA, hB⟩
  · -- round-clearing StopAttack: role flips first, next attacker draws
    -- first (the old defender)
    intro g hmem hff hund
    cases g with
    | mk hist st =>
      cases st with
      | mk d atk dfs h1 h2 ap dp vc ft gy =>
        have hff2 : ft = false := hff
        subst hff2
        have hund2 : atk.length - dfs.length = 0 := hund
        have hstep :
            ((Game.mk hist (GameState.mk d atk dfs h1 h2 ap dp vc false
                gy)).step Action.StopAttack).game.game_state
             = (GameState.mk d atk dfs h1 h2 ap dp vc false
                  gy).handle_stop_attack := by
          unfold Game.step
          rw [if_pos hmem]
          rfl
        rw [hstep]
        cases dp
        case Player1 =>
          have hd : (GameState.mk d atk dfs h1 h2 ap GamePlayer.Player1 vc
                false gy).handle_stop_attack
              = (let t := (GameState.mk d [] [] h1 h2 ap
                  GamePlayer.Player1.other vc false
                  (gy ++ atk ++ dfs)).refill_hands
                 { t with acting_player := t.acting_player.other
                          defender_has_taken := false }) := by
            simp only [GameState.handle_stop_attack, GameState.clear_table,
              GameState.num_undefended]
            rw [if_neg Bool.false_ne_true, if_pos hund2]
          rw [hd]
          obtain ⟨hA, hB, hC⟩ := GameState.refill_hands_spec
            (GameState.mk d [] [] h1 h2 ap GamePlayer.Player1.other vc false
              (gy ++ atk ++ dfs))
          exact ⟨hC, hA, hB⟩
        case Player2 =>
          have hd : (GameState.mk d atk dfs h1 h2 ap GamePlayer.Player2 vc
                false gy).handle_stop_attack
              = (let t := (GameState.mk d [] [] h1 h2 ap
                  GamePlayer.Player2.other vc false
                  (gy ++ atk ++ dfs)).refill_hands
                 { t with acting_player := t.acting_player.other
                          defender_has_taken := false }) := by
            simp only [GameState.handle_stop_attack, GameState.clear_table,
              GameState.num_undefended]
            rw [if_neg Bool.false_ne_true, if_pos hund2]
          rw [hd]
          obtain ⟨hA, hB, hC⟩ := GameState.refill_hands_spec
            (GameState.mk d [] [] h1 h2 ap GamePlayer.Player2.other vc false
              (gy ++ atk ++ dfs))
          exact ⟨hC, hA, hB⟩
  · -- Defend-triggered boundary: refill happens BEFORE the role flips, so
    -- the old attacker (next defender) draws first
    intro g c hmem hb
    cases g with
    | mk hist st =>
      cases st with
      | mk d atk dfs h1 h2 ap dp vc ft gy =>
        have hstep :
            ((Game.mk hist (GameState.mk d atk dfs h1 h2 ap dp vc ft gy)).step
                (Action.Defend c)).game.game_state
              = (GameState.mk d atk dfs h1 h2 ap dp vc ft gy).handle_defense
                  c := by
          unfold Game.step
          rw [if_pos hmem]
          rfl
        rw [hstep]
        cases dp
        case Player1 =>
          simp only [GameState.defender_hand] at hb
          have hcond : (dfs ++ [c]).length = 6 ∨ (h1.erase c).length = 0 := by
            rcases hb with hb1 | hb2
            · left
              simp only [List.length_append, List.length_cons, List.length_nil]
              omega
            · right
              rw [hb2]
              rfl
          have hd : (GameState.mk d atk dfs h1 h2 ap GamePlayer.Player1 vc ft
                gy).handle_defense c
              = (let t := GameState.mk d [] [] (h1.erase c) h2 ap
                  GamePlayer.Player1 vc ft (gy ++ atk ++ (dfs ++ [c]))
                 { t.refill_hands with
                   defender_has_taken := false
                   defending_player := t.refill_hands.defending_player.other }) := by
            simp only [GameState.handle_defense, GameState.defender_hand,
              GameState.clear_table]
            rw [if_pos hcond]
          rw [hd]
          obtain ⟨hA, hB, hC⟩ := GameState.refill_hands_spec
            (GameState.mk d [] [] (h1.erase c) h2 ap GamePlayer.Player1 vc ft
              (gy ++ atk ++ (dfs ++ [c])))
          exact ⟨congrArg GamePlayer.other hC, hA, hB⟩
        case Player2 =>
          simp only [GameState.defender_hand] at hb
          have hcond : (dfs ++ [c]).length = 6 ∨ (h2.erase c).length = 0 := by
            rcases hb with hb1 | hb2
            · left
              simp only [List.length_append, List.length_cons, List.length_nil]
              omega
            · right
              rw [hb2]
              rfl
          have hd : (GameState.mk d atk dfs h1 h2 ap GamePlayer.Player2 vc ft
                gy).handle_defense c
              = (let t := GameState.mk d [] [] h1 (h2.erase c) ap
                  GamePlayer.Player2 vc ft (gy ++ atk ++ (dfs ++ [c]))
                 { t.refill_hands with
                   defender_has_taken := false
                   defending_player := t.refill_hands.defending_player.other }) := by
            simp only [GameState.handle_defense, GameState.defender_hand,
              GameState.clear_table]
            rw [if_pos hcond]
          rw [hd]
          obtain ⟨hA, hB, hC⟩ := GameState.refill_hands_spec
            (GameState.mk d [] [] h1 (h2.erase c) ap GamePlayer.Player2 vc ft
              (gy ++ atk ++ (dfs ++ [c])))
          exact ⟨congrArg GamePlayer.other hC, hA, hB⟩

/-- Witness for the amended C2, exercising all four round-boundary kinds at
concrete states: a round-ending Take, a finalize-take StopAttack, a
round-clearing StopAttack, and a Defend-triggered boundary. -/
theorem C2_amended_refill_order_witness :
    ((wTake.step Action.Take).game.game_state.defending_player
          = wTake.game_state.defending_player
      ∧ (wTake.step Action.Take).game.game_state.getHand
            wTake.game_state.defending_player.other
          = wTake.game_state.attacker_hand
              ++ (wTake.game_state.deck.draw_n
                    (6 - wTake.game_state.attacker_hand.length)).1
      ∧ (wTake.step Action.Take).game.game_state.getHand
            wTake.game_state.defending_player
          = (wTake.game_state.defender_hand ++ wTake.game_state.defense_table
                ++ wTake.game_state.attack_table)
              ++ (((wTake.game_state.deck.draw_n
                      (6 - wTake.game_state.attacker_hand.length)).2).draw_n
                    (6 - (wTake.game_state.defender_hand
                        ++ wTake.game_state.defense_table
                        ++ wTake.game_state.attack_table).length)).1)
      ∧ ((wFinalize.step Action.StopAttack).game.game_state.defending_player
            = wFinalize.game_state.defending_player
        ∧ (wFinalize.step Action.StopAttack).game.game_state.getHand
              wFinalize.game_state.defending_player.other
            = wFinalize.game_state.attacker_hand
                ++ (wFinalize.game_state.deck.draw_n
                      (6 - wFinalize.game_state.attacker_hand.length)).1
        ∧ (wFinalize.step Action.StopAttack).game.game_state.getHand
              wFinalize.game_state.defending_player
            = (wFinalize.game_state.defender_hand
                  ++ wFinalize.game_state.defense_table
                  ++ wFinalize.game_state.attack_table)
                ++ (((wFinalize.game_state.deck.draw_n
                        (6 - wFinalize.game_state.attacker_hand.length)).2).draw_n
                      (6 - (wFinalize.game_state.defender_hand
                          ++ wFinalize.game_state.defense_table
                          ++ wFinalize.game_state.attack_table).length)).1)
      ∧ ((wClear.step Action.StopAttack).game.game_state.defending_player
            = wClear.game_state.defending_player.other
        ∧ (wClear.step Action.StopAttack).game.game_state.getHand
              wClear.game_state.defending_player
            = wClear.game_state.defender_hand
                ++ (wClear.game_state.deck.draw_n
                      (6 - wClear.game_state.defender_hand.length)).1
        ∧ (wClear.step Action.StopAttack).game.game_state.getHand
              wClear.game_state.defending_player.other
            = wClear.game_state.attacker_hand
                ++ (((wClear.game_state.deck.draw_n
                        (6 - wClear.game_state.defender_hand.length)).2).draw_n
                      (6 - wClear.game_state.attacker_hand.length)).1)
      ∧ (((wDefend.step (Action.Defend (cl 7))).game.game_state.defending_player
            = wDefend.game_state.defending_player.other)
        ∧ ((wDefend.step (Action.Defend (cl 7))).game.game_state.getHand
              wDefend.game_state.defending_player.other
            = wDefend.game_state.attacker_hand
                ++ (wDefend.game_state.deck.draw_n
                      (6 - wDefend.game_state.attacker_hand.length)).1)
        ∧ ((wDefend.step (Action.Defend (cl 7))).game.game_state.getHand
              wDefend.game_state.defending_player
            = (wDefend.game_state.defender_hand).erase (cl 7)
                ++ (((wDefend.game_state.deck.draw_n
                        (6 - wDefend.game_state.attacker_hand.length)).2).draw_n
                      (6 - ((wDefend.game_state.defender_hand).erase
                          (cl 7)).length)).1)) :=
  ⟨C2_amended_refill_order.1 wTake (by decide) (by decide),
   C2_amended_refill_order.2.1 wFinalize (by decide) (by decide),
   C2_amended_refill_order.2.2.1 wClear (by decide) (by decide) (by decide),
   C2_amended_refill_order.2.2.2 wDefend (cl 7) (by decide) (by decide)⟩

/-- Claim C2, counterexample. A reachable state (13 accepted actions from a
concrete shuffle) where the boundary fires inside the Defend transition:
the pre-move deck top is the ace of spades, the accepted `Defend (sp 10)`
passes the defending role to Player1 — so the NEXT round's attacker is
Player2 — yet the ace of spades is drawn into hand1 (Player1, the next
round's DEFENDER), not into hand2: the next attacker did not draw first. -/
theorem C2_counterexample :
    Reachable (runSteps (Game.new deckB) actionsB)
      ∧ (runSteps (Game.new deckB)
            actionsB).game_state.deck.cards.getLast? = some (sp 14)
      ∧ ((runSteps (Game.new deckB) actionsB).step
            (Action.Defend (sp 10))).ok = true
      ∧ ((runSteps (Game.new deckB) actionsB).step
            (Action.Defend (sp 10))).game.game_state.defending_player
          = GamePlayer.Player1
      ∧ sp 14 ∈ ((runSteps (Game.new deckB) actionsB).step
            (Action.Defend (sp 10))).game.game_state.hand1
      ∧ sp 14 ∉ ((runSteps (Game.new deckB) actionsB).step
            (Action.Defend (sp 10))).game.game_state.hand2 :=
  ⟨reachable_runSteps _ _ (Reachable.base deckB (by decide)) (by decide),
   by decide, by decide, by decide, by decide, by decide⟩

/-- Claim C4. Terminal condition, winner and rewards: the match is over iff
the deck is empty and at least one hand is empty (never over while the deck
holds a card, for any deck the 36-card game can produce); when it is over,
Player1 wins iff only hand1 is empty, Player2 iff only hand2 is empty, a
draw iff both are empty; rewards are (1,-1), (-1,1) and (0,0) accordingly. -/
theorem C4_terminal_winner_rewards (g : Game)
    (hdeck : g.game_state.deck.cards.length ≤ 52) :
    (g.is_over = true ↔ (g.game_state.deck.cards.length = 0
        ∧ (g.game_state.hand1.length = 0 ∨ g.game_state.hand2.length = 0)))
      ∧ (0 < g.game_state.deck.cards.length → g.is_over = false)
      ∧ (g.is_over = true →
          ((g.get_winner = some GamePlayer.Player1
              ↔ (g.game_state.hand1.length = 0
                  ∧ g.game_state.hand2.length ≠ 0))
            ∧ (g.get_winner = some GamePlayer.Player2
              ↔ (g.game_state.hand2.length = 0
                  ∧ g.game_state.hand1.length ≠ 0))
            ∧ (g.get_winner = none
              ↔ (g.game_state.hand1.length = 0
                  ∧ g.game_state.hand2.length = 0))))
      ∧ (g.get_winner = some GamePlayer.Player1 → g.get_rewards = (1, -1))
      ∧ (g.get_winner = some GamePlayer.Player2 → g.get_rewards = (-1, 1))
      ∧ (g.get_winner = none → g.get_rewards = (0, 0)) := by
  have hover : g.is_over = true ↔ (g.game_state.deck.cards.length = 0
      ∧ (g.game_state.hand1.length = 0 ∨ g.game_state.hand2.length = 0)) := by
    simp only [Game.is_over, Deck.len]
    split_ifs <;>
      constructor <;>
      intro hx <;>
      first
      | rfl
      | omega
      | (exfalso; omega)
      | (exact absurd hx (by decide))
  refine ⟨hover, ?_, ?_, ?_, ?_, ?_⟩
  · intro hpos
    simp only [Game.is_over, Deck.len]
    split_ifs <;> first
    | rfl
    | (exfalso; omega)
  · intro hov
    obtain ⟨hd0, hh⟩ := hover.mp hov
    simp only [Game.get_winner, Deck.len]
    split_ifs <;>
      refine ⟨?_, ?_, ?_⟩ <;>
      constructor <;>
      intro hx <;>
      first
      | rfl
      | omega
      | (exfalso; omega)
      | (exact absurd hx (by decide))
  · intro hw
    simp only [Game.get_rewards, hw]
  · intro hw
    simp only [Game.get_rewards, hw]
  · intro hw
    simp only [Game.get_rewards, hw]

/-- Witness for C4 at a concrete game. -/
theorem C4_terminal_winner_rewards_witness :
    ((Game.new deckA).is_over = true
        ↔ ((Game.new deckA).game_state.deck.cards.length = 0
            ∧ ((Game.new deckA).game_state.hand1.length = 0
                ∨ (Game.new deckA).game_state.hand2.length = 0)))
      ∧ (0 < (Game.new deckA).game_state.deck.cards.length →
          (Game.new deckA).is_over = false)
      ∧ ((Game.new deckA).is_over = true →
          (((Game.new deckA).get_winner = some GamePlayer.Player1
              ↔ ((Game.new deckA).game_state.hand1.length = 0
                  ∧ (Game.new deckA).game_state.hand2.length ≠ 0))
            ∧ ((Game.new deckA).get_winner = some GamePlayer.Player2
              ↔ ((Game.new deckA).game_state.hand2.length = 0
                  ∧ (Game.new deckA).game_state.hand1.length ≠ 0))
            ∧ ((Game.new deckA).get_winner = none
              ↔ ((Game.new deckA).game_state.hand1.length = 0
                  ∧ (Game.new deckA).game_state.hand2.length = 0))))
      ∧ ((Game.new deckA).get_winner = some GamePlayer.Player1 →
          (Game.new deckA).get_rewards = (1, -1))
      ∧ ((Game.new deckA).get_winner = some GamePlayer.Player2 →
          (Game.new deckA).get_rewards = (-1, 1))
      ∧ ((Game.new deckA).get_winner = none →
          (Game.new deckA).get_rewards = (0, 0)) :=
  C4_terminal_winner_rewards (Game.new deckA) (by decide)

/-- The defense predicate exactly as the claim words it: with trump `t` and
open attack card `A`, a candidate `c` beats `A` iff
`(A.suit == t and c.suit == t and c.rank > A.rank) or
 (A.suit != t and (c.suit == t or (c.suit == A.suit and c.rank > A.rank)))`. -/
def beats_claim (t : Suit) (A c : Card) : Bool :=
  (decide (A.suit = t) && (decide (c.suit = t) && decide (A.rank < c.rank)))
    || (!(decide (A.suit = t))
        && (decide (c.suit = t)
            || (decide (c.suit = A.suit) && decide (A.rank < c.rank))))

/-- The source predicate and the claim predicate agree. -/
theorem beats_code_eq_claim (t : Suit) (A c : Card) :
    beats_code t A c = beats_claim t A c := by
  unfold beats_code beats_claim
  by_cases h : A.suit = t <;> simp [h]

/-- Claim C5. When the acting player is the defender and an open attack card
`A` sits at table position `len(defense_table)`, the legal actions are
exactly `Take` followed by a `Defend` for every hand card that beats `A`
under the claim's trump rule. -/
theorem C5_defender_legal_actions (s : GameState) (A : Card)
    (hact : s.acting_player = s.defending_player)
    (hopen : s.attack_table.get? s.defense_table.length = some A) :
    s.legal_actions
      = Action.Take :: (s.defender_hand.filter
          (fun c => beats_claim s.visible_card.suit A c)).map Action.Defend := by
  unfold GameState.legal_actions
  rw [if_pos hact]
  unfold GameState.legal_defenses
  rw [hopen]
  simp only [beats_code_eq_claim]

/-- Witness for C5 at a concrete state: trump hearts, open attack 7 of
spades; the defender holds the 8 of spades (same-suit higher), the 6 of
diamonds (beats nothing) and the 9 of hearts (trump). -/
theorem C5_defender_legal_actions_witness :
    (GameState.mk ⟨[]⟩ [sp 7] [] [sp 8, di 6, he 9] [] GamePlayer.Player1
        GamePlayer.Player1 (he 14) false []).legal_actions
      = Action.Take :: (((GameState.mk ⟨[]⟩ [sp 7] [] [sp 8, di 6, he 9] []
          GamePlayer.Player1 GamePlayer.Player1 (he 14) false
          []).defender_hand).filter
            (fun c => beats_claim (GameState.mk ⟨[]⟩ [sp 7] []
              [sp 8, di 6, he 9] [] GamePlayer.Player1 GamePlayer.Player1
              (he 14) false []).visible_card.suit (sp 7) c)).map
          Action.Defend :=
  C5_defender_legal_actions _ (sp 7) (by decide) (by decide)

/-- Claim C6. An action outside the freshly computed legal-action set is
rejected: `step` reports the error, leaves the game state unchanged, and the
pre-move state was still pushed on the history, which grows by exactly one
entry. -/
theorem C6_illegal_step (g : Game) (a : Action)
    (h : a ∉ g.game_state.legal_actions) :
    (g.step a).ok = false
      ∧ (g.step a).game.game_state = g.game_state
      ∧ (g.step a).game.history = g.history ++ [g.game_state]
      ∧ (g.step a).game.history.length = g.history.length + 1 := by
  unfold Game.step
  rw [if_neg h]
  refine ⟨rfl, rfl, rfl, ?_⟩
  simp

/-- Witness for C6 at a concrete state: `Take` is not legal for the opening
attacker of a fresh game. -/
theorem C6_illegal_step_witness :
    ((Game.new deckA).step Action.Take).ok = false
      ∧ ((Game.new deckA).step Action.Take).game.game_state
          = (Game.new deckA).game_state
      ∧ ((Game.new deckA).step Action.Take).game.history
          = (Game.new deckA).history ++ [(Game.new deckA).game_state]
      ∧ ((Game.new deckA).step Action.Take).game.history.length
          = (Game.new deckA).history.length + 1 :=
  C6_illegal_step (Game.new deckA) Action.Take (by decide)

/-- Card-index round trip over the valid rank range. -/
theorem card_fromIdx_toIdx (c : Card) (hc : c.valid) :
    Card.fromIdx c.toIdx = some c := by
  obtain ⟨s, r⟩ := c
  obtain ⟨h6, h14⟩ := hc
  have h6r : 6 ≤ r := h6
  have h14r : r ≤ 14 := h14
  clear h6 h14
  cases s <;> interval_cases r <;> rfl

/-- Action-index round trip over the valid action space. -/
theorem action_fromNat_toNat (a : Action) (ha : a.valid) :
    Action.fromNat a.toNat = some a := by
  cases a with
  | StopAttack => rfl
  | Take => rfl
  | Attack c =>
    obtain ⟨s, r⟩ := c
    obtain ⟨h6, h14⟩ := ha
    have h6r : 6 ≤ r := h6
    have h14r : r ≤ 14 := h14
    clear h6 h14
    cases s <;> interval_cases r <;> rfl
  | Defend c =>
    obtain ⟨s, r⟩ := c
    obtain ⟨h6, h14⟩ := ha
    have h6r : 6 ≤ r := h6
    have h14r : r ≤ 14 := h14
    clear h6 h14
    cases s <;> interval_cases r <;> rfl

/-- Every valid action encodes below the bitmap width 74. -/
theorem action_toNat_lt (a : Action) (ha : a.valid) :
    a.toNat < num_actions := by
  cases a with
  | StopAttack => decide
  | Take => decide
  | Attack c =>
    obtain ⟨s, r⟩ := c
    obtain ⟨h6, h14⟩ := ha
    have h6r : 6 ≤ r := h6
    have h14r : r ≤ 14 := h14
    clear h6 h14
    cases s <;> interval_cases r <;> decide
  | Defend c =>
    obtain ⟨s, r⟩ := c
    obtain ⟨h6, h14⟩ := ha
    have h6r : 6 ≤ r := h6
    have h14r : r ≤ 14 := h14
    clear h6 h14
    cases s <;> interval_cases r <;> decide

/-- Setting action bits never changes the bitmap width. -/
theorem foldl_set_length (l : List Action) (bm : List Bool) :
    (l.foldl (fun b a => b.set a.toNat true) bm).length = bm.length := by
  induction l generalizing bm with
  | nil => rfl
  | cons a t ih => rw [List.foldl_cons, ih, List.length_set]

/-- A bit of the bit-setting fold is the original bit, or-ed with whether
some listed action encodes to that index. -/
theorem foldl_set_getElem (l : List Action) (bm : List Bool) (i : Nat) :
    (l.foldl (fun b a => b.set a.toNat true) bm)[i]?
      = (bm[i]?).map (fun b => b || l.any (fun a => a.toNat == i)) := by
  induction l generalizing bm with
  | nil =>
    cases h : bm[i]? <;> simp [h]
  | cons a t ih =>
    rw [List.foldl_cons, ih, List.getElem?_set]
    by_cases hai : a.toNat = i
    · rw [if_pos hai]
      by_cases hlen : a.toNat < bm.length
      · rw [if_pos hlen]
        rw [hai] at hlen
        rw [List.getElem?_eq_getElem hlen]
        simp [List.any_cons, hai]
      · rw [if_neg hlen]
        rw [hai] at hlen
        rw [List.getElem?_eq_none (Nat.le_of_not_lt hlen)]
        rfl
    · rw [if_neg hai]
      have hf : (a.toNat == i) = false := beq_eq_false_iff_ne.mpr hai
      cases h : bm[i]? <;> simp [h, List.any_cons, hf]

/-- Membership in the decoded bitmap: some set bit decodes to the action. -/
theorem mem_from_bitmap (bm : List Bool) (a : Action) :
    a ∈ from_bitmap bm
      ↔ ∃ i, bm[i]? = some true ∧ Action.fromNat i = some a := by
  unfold from_bitmap
  rw [List.mem_filterMap]
  constructor
  · rintro ⟨p, hp, hpa⟩
    have hg := List.mem_enum_iff_getElem?.mp hp
    by_cases hb : p.2 = true
    · rw [if_pos hb] at hpa
      rw [hb] at hg
      exact ⟨p.1, hg, hpa⟩
    · rw [if_neg hb] at hpa
      cases hpa
  · rintro ⟨i, hget, hfrom⟩
    refine ⟨(i, true), List.mem_enum_iff_getElem?.mpr hget, ?_⟩
    exact hfrom

/-- Claim C9. The scalar encodings round-trip over their full valid domains
(card indices, action indices with layout 0 = StopAttack, 1 = Take,
2..37 = Attack, 38..73 = Defend), and decoding the width-74 bitmap of a
duplicate-free action list yields exactly its actions. -/
theorem C9_encoding_roundtrips :
    (∀ c : Card, c.valid → Card.fromIdx c.toIdx = some c)
      ∧ (∀ a : Action, a.valid → Action.fromNat a.toNat = some a)
      ∧ (∀ l : List Action, l.Nodup → (∀ a ∈ l, a.valid) →
          ∀ a : Action, (a ∈ from_bitmap (to_bitmap l) ↔ a ∈ l)) := by
  refine ⟨card_fromIdx_toIdx, action_fromNat_toNat, ?_⟩
  intro l hnodup hvalid a
  constructor
  · intro hmem
    obtain ⟨i, hget, hfrom⟩ := (mem_from_bitmap _ _).mp hmem
    unfold to_bitmap at hget
    rw [foldl_set_getElem] at hget
    cases hr : (List.replicate num_actions false)[i]? with
    | none =>
      rw [hr] at hget
      cases hget
    | some b =>
      rw [hr] at hget
      have hb : b = false := by
        rw [List.getElem?_replicate] at hr
        split at hr
        · injection hr with hr1
          exact hr1.symm
        · cases hr
      rw [hb] at hget
      simp only [Option.map_some', Bool.false_or, Option.some.injEq] at hget
      obtain ⟨x, hx, hxeq⟩ := List.any_eq_true.mp hget
      have hxi : x.toNat = i := beq_iff_eq.mp hxeq
      have hrt := action_fromNat_toNat x (hvalid x hx)
      rw [hxi, hfrom] at hrt
      injection hrt with hax
      rw [hax]
      exact hx
  · intro hmem
    apply (mem_from_bitmap _ _).mpr
    refine ⟨a.toNat, ?_, action_fromNat_toNat a (hvalid a hmem)⟩
    unfold to_bitmap
    rw [foldl_set_getElem, List.getElem?_replicate,
      if_pos (action_toNat_lt a (hvalid a hmem))]
    have hany : l.any (fun x => x.toNat == a.toNat) = true :=
      List.any_eq_true.mpr ⟨a, hmem, by simp⟩
    simp only [Option.map_some', Bool.false_or, hany]

/-- Witness for C9 at concrete inputs: the ace of spades card, the
corresponding Attack action, and a two-action list. -/
theorem C9_encoding_roundtrips_witness :
    Card.fromIdx (sp 14).toIdx = some (sp 14)
      ∧ Action.fromNat (Action.Attack (sp 14)).toNat
          = some (Action.Attack (sp 14))
      ∧ (Action.Take ∈ from_bitmap (to_bitmap [Action.Take,
          Action.Defend (he 7)])
          ↔ Action.Take ∈ [Action.Take, Action.Defend (he 7)]) :=
  ⟨C9_encoding_roundtrips.1 (sp 14) (by decide),
   C9_encoding_roundtrips.2.1 (Action.Attack (sp 14)) (by decide),
   C9_encoding_roundtrips.2.2 [Action.Take, Action.Defend (he 7)]
     (by decide) (by decide) Action.Take⟩

/-- Claim C10. The observable projection reveals nothing about hidden
cards: two states that agree on the observing player's own hand, the
tables, the visible card, the take flag, the turn roles, the deck SIZE and
the opponent hand SIZE produce identical observations, however much the
opponent's hand contents or the deck's card identities and order differ. -/
theorem C10_observe_hides_hidden_cards (p : GamePlayer) (s1 s2 : GameState)
    (hhand : s1.getHand p = s2.getHand p)
    (hatk : s1.attack_table = s2.attack_table)
    (hdef : s1.defense_table = s2.defense_table)
    (hvis : s1.visible_card = s2.visible_card)
    (htak : s1.defender_has_taken = s2.defender_has_taken)
    (hact : s1.acting_player = s2.acting_player)
    (hdfd : s1.defending_player = s2.defending_player)
    (hdeck : s1.deck.cards.length = s2.deck.cards.length)
    (hopp : (s1.getHand p.other).length = (s2.getHand p.other).length) :
    s1.observe p = s2.observe p := by
  cases p <;>
    simp only [GameState.getHand, GamePlayer.other] at hhand hopp <;>
    simp only [GameState.observe, Deck.len] <;>
    rw [hhand, hatk, hdef, hvis, htak, hact, hdfd, hdeck, hopp]

/-- Witness for C10: two concrete states with different opponent-hand
contents and different deck contents (equal sizes) observed identically by
Player1. -/
theorem C10_observe_hides_hidden_cards_witness :
    (GameState.mk ⟨[sp 6]⟩ [] [] [he 7] [di 9] GamePlayer.Player1
        GamePlayer.Player2 (cl 14) false []).observe GamePlayer.Player1
      = (GameState.mk ⟨[di 13]⟩ [] [] [he 7] [cl 10] GamePlayer.Player1
          GamePlayer.Player2 (cl 14) false []).observe GamePlayer.Player1 :=
  C10_observe_hides_hidden_cards GamePlayer.Player1 _ _ (by decide)
    (by decide) (by decide) (by decide) (by decide) (by decide) (by decide)
    (by decide) (by decide)

end Durak
